import Mathlib

/-!
Verification of the Quake 2 BSP analysis engine of Quake2MapInfo
(src/server.js).  The engine is shallowly embedded: a Node `Buffer` is a
`List Nat` of byte values, JS strings are Lean `String`s, thrown
exceptions are `Except.error`, and every helper (`readCString`,
`extractFromEntities`, `classifyClassname`, `analyzeBspBuffer`) is
translated function by function from the source, including Node's
clamping semantics for `Buffer.toString` and the `undefined`-on
out-of-range behaviour of raw index reads.
-/

set_option maxRecDepth 100000

/-! ## Basic string helpers mirroring the JavaScript primitives -/

/-- JS `p.isPrefixOf`-style test: `s.startsWith(p)` on code units. -/
def strHasPre (s p : String) : Bool := p.data.isPrefixOf s.data

/-- JS `s.endsWith(p)` on code units. -/
def strHasSuf (s p : String) : Bool := p.data.isSuffixOf s.data

/-- JS `String.prototype.toLowerCase` restricted to the ASCII range
(all strings decoded by this engine are ASCII). -/
def lowerStr (s : String) : String := ⟨s.data.map Char.toLower⟩

/-- JS `v.replace(/\\/g, '/')`. -/
def replaceBackslashes (s : String) : String :=
  ⟨s.data.map (fun c => if c == '\\' then '/' else c)⟩

/-- Whitespace class used by JS `\s` and `trim` on ASCII text. -/
def jsWs (c : Char) : Bool :=
  c == ' ' || c == '\t' || c == '\n' || c == '\x0b' || c == '\x0c' || c == '\r'

/-- JS `String.prototype.trim` on ASCII text. -/
def jsTrim (s : String) : String :=
  ⟨((s.data.dropWhile jsWs).reverse.dropWhile jsWs).reverse⟩

/-- `replace(/\0/g, '')`. -/
def stripNuls (s : String) : String := ⟨s.data.filter (fun c => !(c == '\x00'))⟩

/-- Substring containment (`s` contains `pat` somewhere), used to state
what the alternation regex `/^path|file|script|shader$/` actually means. -/
def containsSub (s pat : String) : Bool :=
  (List.range (s.data.length + 1)).any (fun i => pat.data.isPrefixOf (s.data.drop i))

/-- One alternative of the JS regex `/^path|file|script|shader$/i` tried at
position `i` of the (already case-folded) key `cs`. -/
def pfssAlt (cs : List Char) (i : Nat) : Bool :=
  (i == 0 && "path".data.isPrefixOf (cs.drop i)) ||
  "file".data.isPrefixOf (cs.drop i) ||
  "script".data.isPrefixOf (cs.drop i) ||
  ("shader".data.isPrefixOf (cs.drop i) && (cs.drop i).length == 6)

/-- The test `/^path|file|script|shader$/i.test(k)`: the regex engine scans
every start position and tries the four alternatives there. -/
def pfssTest (k : String) : Bool :=
  (List.range ((lowerStr k).data.length + 1)).any (fun i => pfssAlt (lowerStr k).data i)

/-! ## Byte-buffer primitives (Node.js semantics) -/

/-- Decoding with Node's `'ascii'` encoding masks the high bit of each byte. -/
def asciiDecode (l : List Nat) : String := ⟨l.map (fun b => Char.ofNat (b % 128))⟩

/-- `buf.toString('ascii', s, e)` with Node's clamping of the range:
negative starts clamp to `0`, ends clamp to `buf.length`, and an empty or
inverted range yields the empty string. -/
def jsBufToString (buf : List Nat) (s e : Int) : String :=
  let len : Int := buf.length
  let s1 : Int := if s < 0 then 0 else s
  if s1 > len then "" else
  let e1 : Int := if e > len then len else e
  if e1 ≤ 0 then "" else
  if e1 ≤ s1 then "" else
  asciiDecode ((buf.drop s1.toNat).take (e1 - s1).toNat)

/-- `buf.readInt32LE(off)`: little-endian signed 32-bit read.  Every call
site in the engine is guarded so that `off + 4 ≤ buf.length`. -/
def readInt32LE (buf : List Nat) (off : Nat) : Int :=
  let u := buf.getD off 0 + 256 * buf.getD (off + 1) 0 +
      65536 * buf.getD (off + 2) 0 + 16777216 * buf.getD (off + 3) 0
  if u < 2147483648 then (u : Int) else (u : Int) - 4294967296

/-- `buf[i] === 0` where an out-of-range index yields `undefined` (which is
not `=== 0`). -/
def jsByteIsZero (buf : List Nat) (i : Int) : Bool :=
  if 0 ≤ i ∧ i < (buf.length : Int) then buf.getD i.toNat 1 == 0 else false

/-- The scan loop of `readCString`: advance `i` until `i = e` or
`buf[i] === 0`; fuel-driven so that it computes by `rfl`. -/
def scanZeroAux (buf : List Nat) : Int → Nat → Int
  | i, 0 => i
  | i, fuel + 1 => if jsByteIsZero buf i then i else scanZeroAux buf (i + 1) fuel

/-- `readCString(buf, start, maxLen)` from src/server.js: scan up to
`min(start + maxLen, buf.length)` for a NUL, decode as ASCII, strip NULs,
trim whitespace. -/
def readCString (buf : List Nat) (start : Int) (maxLen : Nat) : String :=
  let e : Int := min (start + (maxLen : Int)) (buf.length : Int)
  let stop := scanZeroAux buf start (e - start).toNat
  jsTrim (stripNuls (jsBufToString buf start stop))

/-! ## Entity statistics (`createEmptyEntityStats`, `inc`, `classifyClassname`) -/

structure SpawnPoints where
  deathmatch : Nat
  coop : Nat
  start : Nat
  intermission : Nat
deriving DecidableEq, Repr, Inhabited

/-- JS object used as a counter map: insertion order preserved, counts only
ever incremented (`inc` in src/server.js). -/
def incMap (m : List (String × Nat)) (k : String) : List (String × Nat) :=
  if m.any (fun q => q.1 == k) then
    m.map (fun q => if q.1 == k then (q.1, q.2 + 1) else q)
  else m ++ [(k, 1)]

structure EntityStats where
  weapons : List (String × Nat)
  armors : List (String × Nat)
  spawnPoints : SpawnPoints
  items : List (String × Nat)
deriving DecidableEq, Repr, Inhabited

def emptyStats : EntityStats := ⟨[], [], ⟨0, 0, 0, 0⟩, []⟩

def interestingItems : List String :=
  ["item_health", "item_health_large", "item_health_mega", "item_quad",
   "item_invulnerability", "item_adrenaline", "item_bandolier", "item_pack",
   "item_power_screen", "item_power_shield"]

/-- The inner if-chain of the `info_player_` branch of `classifyClassname`:
bump the counter named by `cls`, ignore any other `info_player_*` name. -/
def spawnBump (cls : String) (sp : SpawnPoints) : SpawnPoints :=
  if cls == "info_player_deathmatch" then { sp with deathmatch := sp.deathmatch + 1 }
  else if cls == "info_player_start" then { sp with start := sp.start + 1 }
  else if cls == "info_player_coop" then { sp with coop := sp.coop + 1 }
  else if cls == "info_player_intermission" then { sp with intermission := sp.intermission + 1 }
  else sp

/-- `classifyClassname` from src/server.js. -/
def classifyClassname (cls : String) (st : EntityStats) : EntityStats :=
  if strHasPre cls "weapon_" then { st with weapons := incMap st.weapons cls }
  else if strHasPre cls "item_armor_" then { st with armors := incMap st.armors cls }
  else if strHasPre cls "info_player_" then
    { st with spawnPoints := spawnBump cls st.spawnPoints }
  else if interestingItems.contains cls then { st with items := incMap st.items cls }
  else st

/-! ## Entity tokenizer (`extractFromEntities`, regex part) -/

/-- Attempt to match `/"([^"]+)"\s*"([^"]*)"/` at the head of the text,
returning the pair and the remaining text after the match. -/
def matchPairAt : List Char → Option ((String × String) × List Char)
  | '"' :: rest =>
    let key := rest.takeWhile (fun c => !(c == '"'))
    (match rest.dropWhile (fun c => !(c == '"')) with
    | '"' :: r2 =>
      if key.isEmpty then none
      else
        (match r2.dropWhile jsWs with
        | '"' :: r4 =>
          let val := r4.takeWhile (fun c => !(c == '"'))
          (match r4.dropWhile (fun c => !(c == '"')) with
          | '"' :: r6 => some ((⟨key⟩, ⟨val⟩), r6)
          | _ => none)
        | _ => none)
    | _ => none)
  | _ => none

/-- `re.exec` loop: leftmost, non-overlapping matches; keys lowercased. -/
def tokenizeAux : Nat → List Char → List (String × String)
  | 0, _ => []
  | _, [] => []
  | fuel + 1, c :: rest =>
    match matchPairAt (c :: rest) with
    | some (p, r) => (lowerStr p.1, p.2) :: tokenizeAux fuel r
    | none => tokenizeAux fuel rest

def tokenizePairs (txt : String) : List (String × String) :=
  tokenizeAux txt.data.length txt.data

/-! ## Entity classifier (`extractFromEntities`, loop body) -/

structure OutState where
  skies : List String
  sounds : List String
  models : List String
  others : List String
  stats : EntityStats
  name : Option String
  version : Option String
deriving DecidableEq, Repr, Inhabited

def outInit : OutState := ⟨[], [], [], [], emptyStats, none, none⟩

/-- `Set.add`: dedups, keeps insertion order. -/
def insertSet (l : List String) (x : String) : List String :=
  if l.contains x then l else l ++ [x]

/-- JS falsiness of `out.worldInfo.name` (`null` or the empty string). -/
def jsFalsyName : Option String → Bool
  | none => true
  | some s => s == ""

/-- `if ((k === 'message' || 'map' || 'mapname') && !worldInfo.name) name = v`. -/
def nameStep (st : OutState) (p : String × String) : OutState :=
  if (p.1 == "message" || p.1 == "map" || p.1 == "mapname") && jsFalsyName st.name then
    { st with name := some p.2 }
  else st

/-- `if ((k === 'mapversion' || 'version') && !worldInfo.version) version = v`. -/
def versionStep (st : OutState) (p : String × String) : OutState :=
  if (p.1 == "mapversion" || p.1 == "version") && jsFalsyName st.version then
    { st with version := some p.2 }
  else st

/-- `if (k === 'classname') classifyClassname(v.toLowerCase(), entityStats)`. -/
def statsStep (st : OutState) (p : String × String) : OutState :=
  if p.1 == "classname" then { st with stats := classifyClassname (lowerStr p.2) st.stats }
  else st

/-- The `sky / sound / model / music / wad / regex` else-if chain; here
`replaceBackslashes v` plays the role of the loop's local `vv`. -/
def bucketStep (st : OutState) (k v : String) : OutState :=
  if k == "sky" then
    { st with skies := insertSet st.skies ("env/" ++ replaceBackslashes v ++ "*") }
  else if k == "sound" || k == "noise" || k == "snd" || strHasPre k "sound" then
    (if strHasPre (lowerStr (replaceBackslashes v)) "sound/" ||
        strHasSuf (lowerStr (replaceBackslashes v)) ".wav" ||
        strHasSuf (lowerStr (replaceBackslashes v)) ".ogg" ||
        strHasSuf (lowerStr (replaceBackslashes v)) ".mp3" then
      { st with sounds := insertSet st.sounds (replaceBackslashes v) }
    else { st with others := insertSet st.others (k ++ "=" ++ replaceBackslashes v) })
  else if k == "model" then
    (if strHasPre (lowerStr (replaceBackslashes v)) "models/" ||
        strHasSuf (lowerStr (replaceBackslashes v)) ".md2" ||
        strHasSuf (lowerStr (replaceBackslashes v)) ".sp2" ||
        strHasSuf (lowerStr (replaceBackslashes v)) ".iqm" ||
        strHasSuf (lowerStr (replaceBackslashes v)) ".md3" then
      { st with models := insertSet st.models (replaceBackslashes v) }
    else { st with others := insertSet st.others (k ++ "=" ++ replaceBackslashes v) })
  else if k == "music" || k == "cdtrack" || k == "wav" then
    { st with sounds := insertSet st.sounds (replaceBackslashes v) }
  else if k == "wad" then
    { st with others := insertSet st.others ("wad=" ++ replaceBackslashes v) }
  else if pfssTest k then
    { st with others := insertSet st.others (k ++ "=" ++ replaceBackslashes v) }
  else st

/-- One iteration of the `for (const [k, v] of pairs)` loop: skip empty
values, then the four independent classification steps in source order. -/
def processPair (st : OutState) (p : String × String) : OutState :=
  if p.2 == "" then st
  else bucketStep (statsStep (versionStep (nameStep st p) p) p) p.1 p.2

def entFold (ps : List (String × String)) (st : OutState) : OutState :=
  ps.foldl processPair st

/-- `extractFromEntities` from src/server.js. -/
def extractFromEntities (txt : String) (st : OutState) : OutState :=
  entFold (tokenizePairs txt) st

/-! ## Texinfo decoding -/

def sepChar (c : Char) : Bool := c == '/' || c == '\\'

/-- `name.replace(/^textures[\\/]+/i, '')`: strip a case-insensitive
leading `textures` followed by one or more slash/backslash separators. -/
def stripTexPfx (s : String) : String :=
  if (s.data.take 8).map Char.toLower = "textures".data then
    match s.data.drop 8 with
    | [] => s
    | c :: cs => if sepChar c then ⟨List.dropWhile sepChar (c :: cs)⟩ else s
  else s

/-- The whole normalization: `textures/${normalized}.wal`. -/
def normalizeTexName (name : String) : String :=
  "textures/" ++ replaceBackslashes (stripTexPfx name) ++ ".wal"

/-- Body of the TEXINFO record loop over the record indices `is`: the name
field is read at record offset 40 (`vecs(32) + flags(4) + value(4)`),
capped at 32 bytes; empty names are skipped. -/
def texRecordsAux (buf : List Nat) (off : Int) : List Nat → List String → List String
  | [], acc => acc
  | i :: is, acc =>
    texRecordsAux buf off is
      (if readCString buf (off + (i : Int) * 76 + 40) 32 == "" then acc
       else insertSet acc (normalizeTexName (readCString buf (off + (i : Int) * 76 + 40) 32)))

/-- The TEXINFO record loop: `count = floor(length / 76)` records. -/
def texRecords (buf : List Nat) (off : Int) (count : Nat) : List String :=
  texRecordsAux buf off (List.range count) []

/-! ## Header, lump table, top-level analyzer -/

structure Lump where
  offset : Int
  length : Int
deriving DecidableEq, Repr, Inhabited

/-- The lump-table loop: up to 19 entries of 8 bytes starting at byte 8;
stops with an error flag if fewer than 8 bytes remain. -/
def readLumpsAux (buf : List Nat) : Nat → Nat → List Lump × Bool
  | _, 0 => ([], false)
  | off, n + 1 =>
    if off + 8 > buf.length then ([], true)
    else
      let rest := readLumpsAux buf (off + 8) n
      (⟨readInt32LE buf off, readInt32LE buf (off + 4)⟩ :: rest.1, rest.2)

def lumpsOf (buf : List Nat) : List Lump := (readLumpsAux buf 8 19).1

def lumpTableShort (buf : List Nat) : Bool := (readLumpsAux buf 8 19).2

/-- The guard `lump && lump.length > 0 && lump.offset + lump.length <= buf.length`
used by both lump consumers.  Note that it does not require `offset ≥ 0`. -/
def lumpOk (buf : List Nat) : Option Lump → Bool
  | none => false
  | some l => decide (0 < l.length) && decide (l.offset + l.length ≤ (buf.length : Int))

/-- The entity-side output state of one analysis. -/
def entState (buf : List Nat) : OutState :=
  match (lumpsOf buf)[0]? with
  | some ent =>
    if lumpOk buf (some ent) then
      extractFromEntities (jsBufToString buf ent.offset (ent.offset + ent.length)) outInit
    else outInit
  | none => outInit

/-- The texture set (insertion order) of one analysis. -/
def texList (buf : List Nat) : List String :=
  match (lumpsOf buf)[5]? with
  | some tix =>
    if lumpOk buf (some tix) then texRecords buf tix.offset (tix.length.toNat / 76)
    else []
  | none => []

def SMALL_ERR : String := "Файл слишком мал для BSP заголовка"
def TRUNC_ERR : String := "Неожиданный конец файла в таблице лумпов"
def ENT_WARN : String := "ENTITIES лумп отсутствует или поврежден"
def TEX_WARN : String := "TEXINFO лумп отсутствует или поврежден — текстуры могут быть не найдены"

def sigErrMsg (m : String) : String :=
  "Неверная сигнатура: ожидается \"IBSP\", получено \"" ++ m ++ "\""

def verWarnMsg (v : Int) : String :=
  "Версия BSP " ++ toString v ++ ". Ожидалась 38 (Quake 2). Попытаюсь разобрать дальше."

def sigErrors (buf : List Nat) : List String :=
  if jsBufToString buf 0 4 == "IBSP" then [] else [sigErrMsg (jsBufToString buf 0 4)]

def truncErrors (buf : List Nat) : List String :=
  if lumpTableShort buf then [TRUNC_ERR] else []

def verWarnings (buf : List Nat) : List String :=
  if readInt32LE buf 4 == (38 : Int) then [] else [verWarnMsg (readInt32LE buf 4)]

def entWarnings (buf : List Nat) : List String :=
  if lumpOk buf (lumpsOf buf)[0]? then [] else [ENT_WARN]

def texWarnings (buf : List Nat) : List String :=
  if lumpOk buf (lumpsOf buf)[5]? then [] else [TEX_WARN]

/-- `mapName = worldInfo.name || null`. -/
def jsOrNull : Option String → Option String
  | some s => if s == "" then none else some s
  | none => none

/-- Lexicographic byte-wise comparison used to model the default JS
`Array.prototype.sort` comparator on the (ASCII) resource strings. -/
def strLebAux : List Char → List Char → Bool
  | [], _ => true
  | _ :: _, [] => false
  | a :: as, b :: bs =>
    if a < b then true
    else if b < a then false
    else strLebAux as bs

def strLeb (a b : String) : Bool := strLebAux a.data b.data

def strLtbAux : List Char → List Char → Bool
  | [], [] => false
  | [], _ :: _ => true
  | _ :: _, [] => false
  | a :: as, b :: bs =>
    if a < b then true
    else if b < a then false
    else strLtbAux as bs

/-- Strict ascending lexicographic order on strings. -/
def strLtb (a b : String) : Bool := strLtbAux a.data b.data

/-- `Array.from(set).sort()`: the elements of a (duplicate-free) set in
ascending lexicographic order. -/
def sortStr (l : List String) : List String :=
  l.insertionSort (fun a b => strLeb a b = true)

structure AnalysisResult where
  errors : List String
  warnings : List String
  mapName : Option String
  mapVersion : Option String
  textures : List String
  skies : List String
  sounds : List String
  models : List String
  others : List String
  entityStats : EntityStats
deriving DecidableEq, Repr, Inhabited

/-- `analyzeBspBuffer` from src/server.js.  The only `throw` is the
too-small-header check; everything else is total. -/
def analyzeBspBuffer (buf : List Nat) : Except String AnalysisResult :=
  if buf.length < 8 then Except.error SMALL_ERR
  else Except.ok
    { errors := sigErrors buf ++ truncErrors buf
      warnings := verWarnings buf ++ entWarnings buf ++ texWarnings buf
      mapName := jsOrNull (entState buf).name
      mapVersion := jsOrNull (entState buf).version
      textures := sortStr (texList buf)
      skies := sortStr (entState buf).skies
      sounds := sortStr (entState buf).sounds
      models := sortStr (entState buf).models
      others := sortStr (entState buf).others
      entityStats := (entState buf).stats }

/-- The analysis record of a buffer that passed the header gate. -/
def resultOf (buf : List Nat) : AnalysisResult :=
  ((analyzeBspBuffer buf).toOption).getD default

/-! ## Concrete test buffers -/

/-- Little-endian bytes of a signed 32-bit integer. -/
def i32Bytes (n : Int) : List Nat :=
  let u := (n % 4294967296).toNat
  [u % 256, u / 256 % 256, u / 65536 % 256, u / 16777216 % 256]

def strBytes (s : String) : List Nat := s.data.map Char.toNat

def lumpEntry (o l : Int) : List Nat := i32Bytes o ++ i32Bytes l

/-- Valid header + 19-entry lump table with only the TEXINFO entry set,
followed by a single 76-byte texinfo record whose 32-byte name field at
record offset 40 holds `nm` NUL-padded. -/
def texinfoBuf (nm : String) : List Nat :=
  strBytes "IBSP" ++ i32Bytes 38 ++ lumpEntry 0 0 ++ List.replicate 32 0 ++
  lumpEntry 160 76 ++ List.replicate 104 0 ++
  List.replicate 40 0 ++ (strBytes nm ++ List.replicate (32 - nm.length) 0) ++
  List.replicate 4 0

/-- The C6 counterexample buffer: TEXINFO lump with negative offset `-40`
and length `116`, which passes the consumer's bounds check. -/
def negOffBuf : List Nat :=
  strBytes "IBSP" ++ i32Bytes 38 ++ lumpEntry 0 0 ++ List.replicate 32 0 ++
  lumpEntry (-40) 116 ++ List.replicate 104 0

/-- Header-only buffer of eight zero bytes. -/
def zeroBuf8 : List Nat := List.replicate 8 0

/-- 160-byte buffer with a bad magic and an otherwise empty lump table. -/
def badMagicBuf : List Nat := strBytes "XXXX" ++ i32Bytes 38 ++ List.replicate 152 0

/-- 160-byte buffer with good magic but version 1. -/
def badVersionBuf : List Nat := strBytes "IBSP" ++ i32Bytes 1 ++ List.replicate 152 0

def entsTextW3 : String :=
  "\"classname\" \"weapon_shotgun\"\n\"classname\" \"weapon_shotgun\"\n\"classname\" \"weapon_shotgun\"\n"

def entsTextSpawns : String :=
  "\"classname\" \"info_player_deathmatch\"\n\"classname\" \"info_player_start\"\n\"classname\" \"info_player_deathmatch\"\n"

def entsTextNames : String :=
  "\"message\" \"Frag Pit\"\n\"wait\" \"1\"\n\"message\" \"Other Name\"\n"

/-! ## Spec-side (claim-side) companion definitions -/

/-- Drop the first `n` characters of a string. -/
def dropChars (s : String) (n : Nat) : String := ⟨s.data.drop n⟩

/-- Modelled from claim C2's words, for comparison with the code: strip
exactly one leading case-insensitive `textures/` or `textures\` prefix. -/
def specStripOne (s : String) : String :=
  if strHasPre (lowerStr s) "textures/" || strHasPre (lowerStr s) "textures\\" then
    dropChars s 9
  else s

/-- C2's claimed normalization built from the one-prefix strip. -/
def specNormalizeOne (name : String) : String :=
  "textures/" ++ replaceBackslashes (specStripOne name) ++ ".wal"

/-- The amended normalization, following the amended claim's words: strip a
case-insensitive leading `textures` followed by one or more `/` or `\`
separators, replace backslashes, and emit `textures/<n>.wal`. -/
def specStripRun (s : String) : String :=
  if strHasPre (lowerStr s) "textures" ∧ (s.data.drop 8).takeWhile sepChar ≠ [] then
    ⟨(s.data.drop 8).dropWhile sepChar⟩
  else s

def specNormalizeRun (name : String) : String :=
  "textures/" ++ replaceBackslashes (specStripRun name) ++ ".wal"

/-- Spec-side description of first-occurrence-wins metadata capture: the
value of the first pair with a non-empty value whose key is in `keys`. -/
def firstValForKeys (keys : List String) (ps : List (String × String)) : Option String :=
  (ps.find? (fun p => !(p.2 == "") && keys.any (fun k => p.1 == k))).map (fun p => p.2)

-- sanity checks of the embedding on concrete data (kept as plain theorems)
example : tokenizePairs entsTextNames =
    [("message", "Frag Pit"), ("wait", "1"), ("message", "Other Name")] := rfl

example : readCString (texinfoBuf "e1u1/wall01") 200 32 = "e1u1/wall01" := rfl

example : (resultOf (texinfoBuf "e1u1/wall01")).textures = ["textures/e1u1/wall01.wal"] := rfl

/-! ## Support lemmas -/

lemma resultOf_eq (buf : List Nat) (h : 8 ≤ buf.length) :
    resultOf buf =
      { errors := sigErrors buf ++ truncErrors buf
        warnings := verWarnings buf ++ entWarnings buf ++ texWarnings buf
        mapName := jsOrNull (entState buf).name
        mapVersion := jsOrNull (entState buf).version
        textures := sortStr (texList buf)
        skies := sortStr (entState buf).skies
        sounds := sortStr (entState buf).sounds
        models := sortStr (entState buf).models
        others := sortStr (entState buf).others
        entityStats := (entState buf).stats } := by
  rw [resultOf, analyzeBspBuffer, if_neg (by omega)]
  rfl

lemma data_texPre_drop9 (x : String) : ("textures/" ++ x).data.drop 9 = x.data := by
  rw [String.data_append]
  exact List.drop_left "textures/".data x.data

lemma normalizeTexName_assoc (name : String) :
    normalizeTexName name =
      "textures/" ++ (replaceBackslashes (stripTexPfx name) ++ ".wal") := by
  rw [normalizeTexName, String.append_assoc]

lemma texPre_cond_iff (s : String) :
    ((s.data.take 8).map Char.toLower = "textures".data) ↔
      strHasPre (lowerStr s) "textures" = true := by
  rw [strHasPre, List.isPrefixOf_iff_prefix, List.prefix_iff_eq_take]
  show _ ↔ "textures".data = (s.data.map Char.toLower).take "textures".data.length
  constructor
  · intro h
    rw [show "textures".data.length = 8 from rfl, ← List.map_take, h]
  · intro h
    rw [show "textures".data.length = 8 from rfl, ← List.map_take] at h
    exact h.symm

lemma strip_eq_specRun (s : String) : stripTexPfx s = specStripRun s := by
  unfold stripTexPfx specStripRun
  by_cases h : (s.data.take 8).map Char.toLower = "textures".data
  · rw [if_pos h]
    cases hd : s.data.drop 8 with
    | nil => simp [hd]
    | cons c cs =>
      simp only [hd]
      by_cases hc : sepChar c = true
      · rw [if_pos hc, if_pos ⟨(texPre_cond_iff s).mp h, by simp [List.takeWhile_cons, hc]⟩]
      · rw [if_neg (by simp [hc]), if_neg (fun hcond => by
          simp [List.takeWhile_cons, hc] at hcond)]
  · rw [if_neg h, if_neg (fun hcond => h ((texPre_cond_iff s).mpr hcond.1))]

/-! ## Claim theorems: header gate, normalization -/

/-- C1: a buffer shorter than 8 bytes makes `analyzeBspBuffer` throw (the
only fatal condition); any buffer of at least 8 bytes always yields an
`AnalysisResult`, however malformed the rest of it is. -/
theorem analyze_header_gate (buf : List Nat) :
    (buf.length < 8 → analyzeBspBuffer buf = Except.error SMALL_ERR) ∧
    (8 ≤ buf.length → (analyzeBspBuffer buf).isOk = true) := by
  constructor
  · intro h
    rw [analyzeBspBuffer, if_pos h]
  · intro h
    rw [analyzeBspBuffer, if_neg (by omega)]
    rfl

theorem analyze_header_gate_w :
    analyzeBspBuffer [] = Except.error SMALL_ERR ∧
    (analyzeBspBuffer zeroBuf8).isOk = true :=
  ⟨(analyze_header_gate []).1 (by decide), (analyze_header_gate zeroBuf8).2 (by decide)⟩

/-- C9: re-adding the `textures/` prefix to what remains of the
normalizer's output after stripping the prefix it just added reproduces the
output unchanged, and the output of normalizing any non-empty name ends in
`.wal`. -/
theorem normalize_wal_shape (name : String) (h : name ≠ "") :
    "textures/" ++ dropChars (normalizeTexName name) 9 = normalizeTexName name ∧
    strHasSuf (normalizeTexName name) ".wal" = true := by
  constructor
  · apply String.ext
    rw [String.data_append]
    show "textures/".data ++ (normalizeTexName name).data.drop 9 = (normalizeTexName name).data
    rw [normalizeTexName_assoc, data_texPre_drop9]
    simp [String.data_append]
  · rw [strHasSuf, List.isSuffixOf_iff_suffix, normalizeTexName_assoc, String.data_append]
    have h1 : ".wal".data <:+ (replaceBackslashes (stripTexPfx name) ++ ".wal").data := by
      rw [String.data_append]
      exact List.suffix_append _ _
    exact h1.trans (List.suffix_append _ _)

theorem normalize_wal_shape_w :
    "textures/" ++ dropChars (normalizeTexName "e1u1/wall01") 9 =
      normalizeTexName "e1u1/wall01" ∧
    strHasSuf (normalizeTexName "e1u1/wall01") ".wal" = true :=
  normalize_wal_shape "e1u1/wall01" (by decide)

/-- C2 counterexample: on the name `textures//a` (two separators) the code
strips the whole separator run, producing `textures/a.wal`, while the
claim's strip-one-`textures/`-prefix rule would produce `textures//a.wal`;
on a full buffer the emitted texture set is `{textures/a.wal}`. -/
theorem texinfo_one_sep_strip_cex :
    specNormalizeOne "textures//a" = "textures//a.wal" ∧
    normalizeTexName "textures//a" = "textures/a.wal" ∧
    (resultOf (texinfoBuf "textures//a")).textures = ["textures/a.wal"] ∧
    "textures//a.wal" ∉ (resultOf (texinfoBuf "textures//a")).textures := by
  refine ⟨rfl, rfl, rfl, ?_⟩
  decide

/-- C2 (amended): the texture output is formed by case-insensitively
stripping a leading `textures` followed by one or more `/` or `\`
separators, replacing backslashes with forward slashes and emitting
`textures/<normalized-name>.wal`; the 76-byte TEXINFO lump with name field
`e1u1/wall01` (NUL-padded to 32 bytes at record offset 40) yields exactly
`{textures/e1u1/wall01.wal}`. -/
theorem texinfo_normalization_amended :
    (∀ name : String, normalizeTexName name = specNormalizeRun name) ∧
    (resultOf (texinfoBuf "e1u1/wall01")).textures = ["textures/e1u1/wall01.wal"] := by
  refine ⟨fun name => ?_, rfl⟩
  rw [normalizeTexName, specNormalizeRun, strip_eq_specRun]

/-! ## Classname dispatch -/

lemma strHasPre_true_iff (s p : String) : strHasPre s p = true ↔ p.data <+: s.data := by
  rw [strHasPre]
  exact List.isPrefixOf_iff_prefix

lemma no_both_pre (cls p q : String) (hnpq : ¬ p.data <+: q.data)
    (hlen : p.data.length ≤ q.data.length) (hq : strHasPre cls q = true) :
    strHasPre cls p = false := by
  cases hb : strHasPre cls p with
  | false => rfl
  | true =>
    exfalso
    have hp : p.data <+: cls.data := (strHasPre_true_iff _ _).mp hb
    have hq' : q.data <+: cls.data := (strHasPre_true_iff _ _).mp hq
    rcases List.prefix_or_prefix_of_prefix hp hq' with h1 | h2
    · exact hnpq h1
    · have heq : q.data = p.data :=
        List.IsPrefix.eq_of_length h2 (le_antisymm h2.length_le hlen)
      exact hnpq (by rw [heq])

lemma info_not_item (cls : String) (h : strHasPre cls "info_player_" = true) :
    interestingItems.contains cls = false := by
  cases hb : interestingItems.contains cls with
  | false => rfl
  | true =>
    exfalso
    have hmem : cls ∈ interestingItems := List.elem_iff.mp hb
    simp only [interestingItems, List.mem_cons, List.not_mem_nil, or_false] at hmem
    rcases hmem with rfl | rfl | rfl | rfl | rfl | rfl | rfl | rfl | rfl | rfl
    all_goals exact absurd h (by decide)

/-- C3: classname classification is the ordered dispatch
weapon-prefix / armor-prefix / spawn-prefix / item-allowlist / ignore, and
three `weapon_shotgun` classnames leave `weapons[weapon_shotgun] = 3` with
every other part of the output untouched. -/
theorem classname_dispatch :
    (∀ (cls : String) (st : EntityStats), strHasPre cls "weapon_" = true →
      classifyClassname cls st = { st with weapons := incMap st.weapons cls }) ∧
    (∀ (cls : String) (st : EntityStats), strHasPre cls "weapon_" = false →
      strHasPre cls "item_armor_" = true →
      classifyClassname cls st = { st with armors := incMap st.armors cls }) ∧
    (∀ (cls : String) (st : EntityStats), strHasPre cls "weapon_" = false →
      strHasPre cls "item_armor_" = false → strHasPre cls "info_player_" = true →
      classifyClassname cls st = { st with spawnPoints := spawnBump cls st.spawnPoints }) ∧
    (∀ (cls : String) (st : EntityStats), strHasPre cls "weapon_" = false →
      strHasPre cls "item_armor_" = false → strHasPre cls "info_player_" = false →
      interestingItems.contains cls = true →
      classifyClassname cls st = { st with items := incMap st.items cls }) ∧
    (∀ (cls : String) (st : EntityStats), strHasPre cls "weapon_" = false →
      strHasPre cls "item_armor_" = false → strHasPre cls "info_player_" = false →
      interestingItems.contains cls = false → classifyClassname cls st = st) ∧
    ((extractFromEntities entsTextW3 outInit).stats.weapons = [("weapon_shotgun", 3)] ∧
      (extractFromEntities entsTextW3 outInit).stats.armors = [] ∧
      (extractFromEntities entsTextW3 outInit).stats.items = [] ∧
      (extractFromEntities entsTextW3 outInit).stats.spawnPoints = ⟨0, 0, 0, 0⟩ ∧
      (extractFromEntities entsTextW3 outInit).skies = [] ∧
      (extractFromEntities entsTextW3 outInit).sounds = [] ∧
      (extractFromEntities entsTextW3 outInit).models = [] ∧
      (extractFromEntities entsTextW3 outInit).others = [] ∧
      (extractFromEntities entsTextW3 outInit).name = none ∧
      (extractFromEntities entsTextW3 outInit).version = none) := by
  refine ⟨?_, ?_, ?_, ?_, ?_, ?_⟩
  · intro cls st h
    simp [classifyClassname, h]
  · intro cls st h1 h2
    simp [classifyClassname, h1, h2]
  · intro cls st h1 h2 h3
    simp [classifyClassname, h1, h2, h3]
  · intro cls st h1 h2 h3 h4
    have hm : cls ∈ interestingItems := List.elem_iff.mp h4
    simp [classifyClassname, h1, h2, h3, hm]
  · intro cls st h1 h2 h3 h4
    have hm : cls ∉ interestingItems := by
      intro hmem
      have hc : interestingItems.contains cls = true := List.elem_iff.mpr hmem
      rw [hc] at h4
      exact absurd h4 (by decide)
    simp [classifyClassname, h1, h2, h3, hm]
  · exact ⟨rfl, rfl, rfl, rfl, rfl, rfl, rfl, rfl, rfl, rfl⟩

theorem classname_dispatch_w :
    classifyClassname "weapon_railgun" emptyStats =
      { emptyStats with weapons := incMap emptyStats.weapons "weapon_railgun" } ∧
    classifyClassname "item_armor_body" emptyStats =
      { emptyStats with armors := incMap emptyStats.armors "item_armor_body" } ∧
    classifyClassname "info_player_coop" emptyStats =
      { emptyStats with spawnPoints := spawnBump "info_player_coop" emptyStats.spawnPoints } ∧
    classifyClassname "item_quad" emptyStats =
      { emptyStats with items := incMap emptyStats.items "item_quad" } ∧
    classifyClassname "func_door" emptyStats = emptyStats :=
  ⟨classname_dispatch.1 "weapon_railgun" emptyStats (by decide),
   classname_dispatch.2.1 "item_armor_body" emptyStats (by decide) (by decide),
   classname_dispatch.2.2.1 "info_player_coop" emptyStats (by decide) (by decide) (by decide),
   classname_dispatch.2.2.2.1 "item_quad" emptyStats (by decide) (by decide) (by decide)
     (by decide),
   classname_dispatch.2.2.2.2.1 "func_door" emptyStats (by decide) (by decide) (by decide)
     (by decide)⟩

/-- C4: exactly the four known `info_player_*` classnames bump their named
spawn counters, any other `info_player_*` classname is silently ignored,
and two deathmatch spawns plus one start spawn produce
`{deathmatch := 2, start := 1, coop := 0, intermission := 0}`. -/
theorem info_player_counters :
    (∀ st : EntityStats, classifyClassname "info_player_deathmatch" st =
      { st with spawnPoints :=
        { st.spawnPoints with deathmatch := st.spawnPoints.deathmatch + 1 } }) ∧
    (∀ st : EntityStats, classifyClassname "info_player_start" st =
      { st with spawnPoints :=
        { st.spawnPoints with start := st.spawnPoints.start + 1 } }) ∧
    (∀ st : EntityStats, classifyClassname "info_player_coop" st =
      { st with spawnPoints :=
        { st.spawnPoints with coop := st.spawnPoints.coop + 1 } }) ∧
    (∀ st : EntityStats, classifyClassname "info_player_intermission" st =
      { st with spawnPoints :=
        { st.spawnPoints with intermission := st.spawnPoints.intermission + 1 } }) ∧
    (∀ (cls : String) (st : EntityStats), strHasPre cls "info_player_" = true →
      cls ≠ "info_player_deathmatch" → cls ≠ "info_player_start" →
      cls ≠ "info_player_coop" → cls ≠ "info_player_intermission" →
      classifyClassname cls st = st) ∧
    (extractFromEntities entsTextSpawns outInit).stats.spawnPoints =
      { deathmatch := 2, coop := 0, start := 1, intermission := 0 } := by
  refine ⟨fun st => rfl, fun st => rfl, fun st => rfl, fun st => rfl, ?_, rfl⟩
  intro cls st hinfo h1 h2 h3 h4
  have hw := no_both_pre cls "weapon_" "info_player_" (by decide) (by decide) hinfo
  have ha := no_both_pre cls "item_armor_" "info_player_" (by decide) (by decide) hinfo
  have hb1 : (cls == "info_player_deathmatch") = false := beq_eq_false_iff_ne.mpr h1
  have hb2 : (cls == "info_player_start") = false := beq_eq_false_iff_ne.mpr h2
  have hb3 : (cls == "info_player_coop") = false := beq_eq_false_iff_ne.mpr h3
  have hb4 : (cls == "info_player_intermission") = false := beq_eq_false_iff_ne.mpr h4
  simp [classifyClassname, spawnBump, hw, ha, hinfo, hb1, hb2, hb3, hb4]

/-! ## The others-bucket regex -/

lemma preSteps_others (st : OutState) (p : String × String) :
    (statsStep (versionStep (nameStep st p) p) p).others = st.others := by
  unfold statsStep versionStep nameStep
  repeat' split
  all_goals rfl

lemma strHasPre_refl (s : String) : strHasPre s s = true :=
  (strHasPre_true_iff s s).mpr (List.prefix_refl _)

lemma pfss_iff (k : String) :
    pfssTest k = true ↔
      (strHasPre (lowerStr k) "path" = true ∨ containsSub (lowerStr k) "file" = true ∨
       containsSub (lowerStr k) "script" = true ∨ strHasSuf (lowerStr k) "shader" = true) := by
  constructor
  · intro h
    rw [pfssTest, List.any_eq_true] at h
    obtain ⟨i, hi, halt⟩ := h
    unfold pfssAlt at halt
    rw [Bool.or_eq_true, Bool.or_eq_true, Bool.or_eq_true, Bool.and_eq_true,
      Bool.and_eq_true] at halt
    rcases halt with ((⟨hi0, hpath⟩ | hfile) | hscript) | ⟨hsh, hlen⟩
    · left
      rw [strHasPre]
      have hi0' : i = 0 := beq_iff_eq.mp hi0
      subst hi0'
      simpa using hpath
    · right; left
      rw [containsSub, List.any_eq_true]
      exact ⟨i, hi, by simpa using hfile⟩
    · right; right; left
      rw [containsSub, List.any_eq_true]
      exact ⟨i, hi, by simpa using hscript⟩
    · right; right; right
      rw [strHasSuf, List.isSuffixOf_iff_suffix]
      have hp : "shader".data <+: ((lowerStr k).data.drop i) :=
        List.isPrefixOf_iff_prefix.mp hsh
      have hlen' : ((lowerStr k).data.drop i).length = 6 := beq_iff_eq.mp hlen
      have heq : "shader".data = (lowerStr k).data.drop i :=
        List.IsPrefix.eq_of_length hp (by rw [hlen']; rfl)
      exact ⟨(lowerStr k).data.take i, by rw [heq, List.take_append_drop]⟩
  · intro h
    rw [pfssTest, List.any_eq_true]
    rcases h with hpath | hfile | hscript | hsuf
    · refine ⟨0, ?_, ?_⟩
      · rw [List.mem_range]
        omega
      · rw [strHasPre] at hpath
        simp [pfssAlt, hpath]
    · rw [containsSub, List.any_eq_true] at hfile
      obtain ⟨i, hi, hf⟩ := hfile
      exact ⟨i, hi, by simp only [pfssAlt]; simp at hf; simp [hf]⟩
    · rw [containsSub, List.any_eq_true] at hscript
      obtain ⟨i, hi, hf⟩ := hscript
      exact ⟨i, hi, by simp only [pfssAlt]; simp at hf; simp [hf]⟩
    · rw [strHasSuf, List.isSuffixOf_iff_suffix] at hsuf
      obtain ⟨t, ht⟩ := hsuf
      refine ⟨t.length, ?_, ?_⟩
      · rw [List.mem_range]
        have hlen : t.length + 6 = (lowerStr k).data.length := by
          rw [← ht, List.length_append]
          rfl
        omega
      · have hdrop : (lowerStr k).data.drop t.length = "shader".data := by
          rw [← ht]
          exact List.drop_left t "shader".data
        have hcl : ("shader".data.isPrefixOf "shader".data &&
            ("shader".data.length == 6)) = true := by decide
        simp only [pfssAlt]
        rw [hdrop]
        simp [hcl]

lemma bucketStep_others_regex (st : OutState) (k v : String)
    (hsky : (k == "sky") = false) (hsound : (k == "sound") = false)
    (hnoise : (k == "noise") = false) (hsnd : (k == "snd") = false)
    (hpre : strHasPre k "sound" = false) (hmodel : (k == "model") = false)
    (hmusic : (k == "music") = false) (hcd : (k == "cdtrack") = false)
    (hwav : (k == "wav") = false) (hwad : (k == "wad") = false) :
    (bucketStep st k v).others =
      (if pfssTest k = true then insertSet st.others (k ++ "=" ++ replaceBackslashes v)
       else st.others) := by
  unfold bucketStep
  rw [if_neg (by simp [hsky]), if_neg (by simp [hsound, hnoise, hsnd, hpre]),
    if_neg (by simp [hmodel]), if_neg (by simp [hmusic, hcd, hwav]),
    if_neg (by simp [hwad])]
  split <;> rfl

/-- C10: for a pair with a non-empty value whose key is routed to neither
the sky, sound, model, music/cdtrack/wav nor wad branches, the `others`
bucket gains `<key>=<normalized-value>` exactly when the key starts with
`path`, contains `file`, contains `script`, or ends with `shader`
(case-insensitive substring semantics, e.g. the key `profiled` qualifies
through `file`). -/
theorem others_key_substring_rule :
    (∀ (k v : String) (st : OutState), v ≠ "" →
      k ≠ "sky" → k ≠ "noise" → k ≠ "snd" → strHasPre k "sound" = false →
      k ≠ "model" → k ≠ "music" → k ≠ "cdtrack" → k ≠ "wav" → k ≠ "wad" →
      (processPair st (k, v)).others =
        (if strHasPre (lowerStr k) "path" = true ∨ containsSub (lowerStr k) "file" = true ∨
            containsSub (lowerStr k) "script" = true ∨ strHasSuf (lowerStr k) "shader" = true
         then insertSet st.others (k ++ "=" ++ replaceBackslashes v)
         else st.others)) ∧
    (processPair outInit ("profiled", "x")).others = ["profiled=x"] := by
  refine ⟨?_, rfl⟩
  intro k v st hv hsky hnoise hsnd hsound hmodel hmusic hcd hwav hwad
  have hbv : (v == "") = false := beq_eq_false_iff_ne.mpr hv
  have hksound : (k == "sound") = false := by
    rw [beq_eq_false_iff_ne]
    rintro rfl
    rw [strHasPre_refl] at hsound
    exact absurd hsound (by decide)
  unfold processPair
  rw [if_neg (by simp [hbv])]
  rw [bucketStep_others_regex _ k v (beq_eq_false_iff_ne.mpr hsky) hksound
    (beq_eq_false_iff_ne.mpr hnoise) (beq_eq_false_iff_ne.mpr hsnd) hsound
    (beq_eq_false_iff_ne.mpr hmodel) (beq_eq_false_iff_ne.mpr hmusic)
    (beq_eq_false_iff_ne.mpr hcd) (beq_eq_false_iff_ne.mpr hwav)
    (beq_eq_false_iff_ne.mpr hwad), preSteps_others]
  by_cases hp : pfssTest k = true
  · rw [if_pos hp, if_pos ((pfss_iff k).mp hp)]
  · rw [if_neg hp, if_neg (fun hd => hp ((pfss_iff k).mpr hd))]

theorem others_key_substring_rule_w :
    (processPair outInit ("profiled", "x")).others =
      (if strHasPre (lowerStr "profiled") "path" = true ∨
          containsSub (lowerStr "profiled") "file" = true ∨
          containsSub (lowerStr "profiled") "script" = true ∨
          strHasSuf (lowerStr "profiled") "shader" = true
       then insertSet outInit.others ("profiled" ++ "=" ++ replaceBackslashes "x")
       else outInit.others) :=
  others_key_substring_rule.1 "profiled" "x" outInit (by decide) (by decide) (by decide)
    (by decide) (by decide) (by decide) (by decide) (by decide) (by decide) (by decide)

/-! ## First-occurrence-wins metadata -/

lemma bucketStep_meta (st : OutState) (k v : String) :
    (bucketStep st k v).name = st.name ∧ (bucketStep st k v).version = st.version ∧
    (bucketStep st k v).stats = st.stats := by
  unfold bucketStep
  repeat' split
  all_goals exact ⟨rfl, rfl, rfl⟩

lemma statsStep_name (st : OutState) (p : String × String) :
    (statsStep st p).name = st.name := by
  unfold statsStep
  split <;> rfl

lemma statsStep_version (st : OutState) (p : String × String) :
    (statsStep st p).version = st.version := by
  unfold statsStep
  split <;> rfl

lemma versionStep_name (st : OutState) (p : String × String) :
    (versionStep st p).name = st.name := by
  unfold versionStep
  split <;> rfl

lemma nameStep_version (st : OutState) (p : String × String) :
    (nameStep st p).version = st.version := by
  unfold nameStep
  split <;> rfl

lemma nameStep_name (st : OutState) (p : String × String) :
    (nameStep st p).name =
      if ((p.1 == "message" || p.1 == "map" || p.1 == "mapname") && jsFalsyName st.name) = true
      then some p.2 else st.name := by
  unfold nameStep
  split <;> rfl

lemma versionStep_version (st : OutState) (p : String × String) :
    (versionStep st p).version =
      if ((p.1 == "mapversion" || p.1 == "version") && jsFalsyName st.version) = true
      then some p.2 else st.version := by
  unfold versionStep
  split <;> rfl

lemma processPair_name (st : OutState) (p : String × String) :
    (processPair st p).name =
      if (!(p.2 == "") &&
          ((p.1 == "message" || p.1 == "map" || p.1 == "mapname") && jsFalsyName st.name)) = true
      then some p.2 else st.name := by
  unfold processPair
  by_cases hv : (p.2 == "") = true
  · simp [hv]
  · have hv' : (p.2 == "") = false := by
      revert hv
      cases (p.2 == "") <;> simp
    rw [if_neg hv, (bucketStep_meta _ _ _).1, statsStep_name, versionStep_name, nameStep_name]
    simp [hv']

lemma processPair_version (st : OutState) (p : String × String) :
    (processPair st p).version =
      if (!(p.2 == "") &&
          ((p.1 == "mapversion" || p.1 == "version") && jsFalsyName st.version)) = true
      then some p.2 else st.version := by
  unfold processPair
  by_cases hv : (p.2 == "") = true
  · simp [hv]
  · have hv' : (p.2 == "") = false := by
      revert hv
      cases (p.2 == "") <;> simp
    rw [if_neg hv, (bucketStep_meta _ _ _).2.1, statsStep_version, versionStep_version,
      nameStep_version]
    simp [hv']

lemma entFold_cons (p : String × String) (ps : List (String × String)) (st : OutState) :
    entFold (p :: ps) st = entFold ps (processPair st p) := rfl

lemma entFold_name_frozen (ps : List (String × String)) :
    ∀ st : OutState, jsFalsyName st.name = false → (entFold ps st).name = st.name := by
  induction ps with
  | nil => intro st _; rfl
  | cons p ps ih =>
    intro st h
    rw [entFold_cons]
    have hp : (processPair st p).name = st.name := by
      rw [processPair_name]
      simp [h]
    rw [ih _ (by rw [hp]; exact h), hp]

lemma entFold_version_frozen (ps : List (String × String)) :
    ∀ st : OutState, jsFalsyName st.version = false → (entFold ps st).version = st.version := by
  induction ps with
  | nil => intro st _; rfl
  | cons p ps ih =>
    intro st h
    rw [entFold_cons]
    have hp : (processPair st p).version = st.version := by
      rw [processPair_version]
      simp [h]
    rw [ih _ (by rw [hp]; exact h), hp]

lemma any3_eq (x a b c : String) :
    ([a, b, c].any (fun k => x == k)) = (x == a || x == b || x == c) := by
  simp [List.any_cons, List.any_nil, Bool.or_assoc]

lemma any2_eq (x a b : String) :
    ([a, b].any (fun k => x == k)) = (x == a || x == b) := by
  simp [List.any_cons, List.any_nil]

lemma firstValForKeys_cons_pos (keys : List String) (q : String × String)
    (ps : List (String × String))
    (h : (!(q.2 == "") && keys.any (fun k => q.1 == k)) = true) :
    firstValForKeys keys (q :: ps) = some q.2 := by
  unfold firstValForKeys
  rw [List.find?_cons_of_pos (p := fun x => !(x.2 == "") && keys.any (fun k => x.1 == k)) ps h]
  rfl

lemma firstValForKeys_cons_neg (keys : List String) (q : String × String)
    (ps : List (String × String))
    (h : (!(q.2 == "") && keys.any (fun k => q.1 == k)) = false) :
    firstValForKeys keys (q :: ps) = firstValForKeys keys ps := by
  unfold firstValForKeys
  rw [List.find?_cons_of_neg (p := fun x => !(x.2 == "") && keys.any (fun k => x.1 == k)) ps
    (by simp [h])]

lemma entFold_name_unset (ps : List (String × String)) :
    ∀ st : OutState, st.name = none →
      (entFold ps st).name = firstValForKeys ["message", "map", "mapname"] ps := by
  induction ps with
  | nil =>
    intro st h
    simpa [firstValForKeys] using h
  | cons p ps ih =>
    intro st h
    rw [entFold_cons]
    have hfals : jsFalsyName st.name = true := by rw [h]; rfl
    by_cases hc : (!(p.2 == "") && (p.1 == "message" || p.1 == "map" || p.1 == "mapname")) = true
    · have hc2 := hc
      simp only [Bool.and_eq_true] at hc2
      obtain ⟨hv, hk⟩ := hc2
      have hset : (processPair st p).name = some p.2 := by
        rw [processPair_name]
        simp [hv, hk, hfals]
      have hfrozen : jsFalsyName (processPair st p).name = false := by
        rw [hset]
        show (p.2 == "") = false
        simpa using hv
      rw [entFold_name_frozen ps _ hfrozen, hset,
        firstValForKeys_cons_pos _ _ _ (by rw [any3_eq]; exact hc)]
    · have hc' : (!(p.2 == "") && (p.1 == "message" || p.1 == "map" || p.1 == "mapname")) = false := by
        revert hc
        cases (!(p.2 == "") && (p.1 == "message" || p.1 == "map" || p.1 == "mapname")) <;> simp
      have hskip : (processPair st p).name = st.name := by
        rw [processPair_name]
        cases hA : (!(p.2 == "")) with
        | false => simp [hA]
        | true =>
          rw [hA] at hc'
          simp only [Bool.true_and] at hc'
          simp [hA, hc']
      rw [ih _ (by rw [hskip]; exact h),
        firstValForKeys_cons_neg _ _ _ (by rw [any3_eq]; exact hc')]

lemma entFold_version_unset (ps : List (String × String)) :
    ∀ st : OutState, st.version = none →
      (entFold ps st).version = firstValForKeys ["mapversion", "version"] ps := by
  induction ps with
  | nil =>
    intro st h
    simpa [firstValForKeys] using h
  | cons p ps ih =>
    intro st h
    rw [entFold_cons]
    have hfals : jsFalsyName st.version = true := by rw [h]; rfl
    by_cases hc : (!(p.2 == "") && (p.1 == "mapversion" || p.1 == "version")) = true
    · have hc2 := hc
      simp only [Bool.and_eq_true] at hc2
      obtain ⟨hv, hk⟩ := hc2
      have hset : (processPair st p).version = some p.2 := by
        rw [processPair_version]
        simp [hv, hk, hfals]
      have hfrozen : jsFalsyName (processPair st p).version = false := by
        rw [hset]
        show (p.2 == "") = false
        simpa using hv
      rw [entFold_version_frozen ps _ hfrozen, hset,
        firstValForKeys_cons_pos _ _ _ (by rw [any2_eq]; exact hc)]
    · have hc' : (!(p.2 == "") && (p.1 == "mapversion" || p.1 == "version")) = false := by
        revert hc
        cases (!(p.2 == "") && (p.1 == "mapversion" || p.1 == "version")) <;> simp
      have hskip : (processPair st p).version = st.version := by
        rw [processPair_version]
        cases hA : (!(p.2 == "")) with
        | false => simp [hA]
        | true =>
          rw [hA] at hc'
          simp only [Bool.true_and] at hc'
          simp [hA, hc']
      rw [ih _ (by rw [hskip]; exact h),
        firstValForKeys_cons_neg _ _ _ (by rw [any2_eq]; exact hc')]

/-- C5: map name and map version are first-occurrence-wins over the flat
pair stream: the name (resp. version) after classification is the value of
the first pair with a non-empty value whose key is `message`/`map`/`mapname`
(resp. `mapversion`/`version`); empty-valued pairs never set either field;
`message "Frag Pit"` followed by `message "Other Name"` yields
`mapName = "Frag Pit"`. -/
theorem map_name_first_occurrence :
    (∀ ps : List (String × String),
      (entFold ps outInit).name = firstValForKeys ["message", "map", "mapname"] ps) ∧
    (∀ ps : List (String × String),
      (entFold ps outInit).version = firstValForKeys ["mapversion", "version"] ps) ∧
    jsOrNull (extractFromEntities entsTextNames outInit).name = some "Frag Pit" :=
  ⟨fun ps => entFold_name_unset ps outInit rfl,
   fun ps => entFold_version_unset ps outInit rfl, rfl⟩

theorem info_player_counters_w :
    classifyClassname "info_player_deathmatch" emptyStats =
      { emptyStats with spawnPoints :=
        { emptyStats.spawnPoints with deathmatch := emptyStats.spawnPoints.deathmatch + 1 } } ∧
    classifyClassname "info_player_mega" emptyStats = emptyStats :=
  ⟨info_player_counters.1 emptyStats,
   info_player_counters.2.2.2.2.1 "info_player_mega" emptyStats (by decide) (by decide)
     (by decide) (by decide) (by decide)⟩

/-! ## Lump bounds (C6) -/

lemma entState_of_bad (buf : List Nat) (hE : lumpOk buf ((lumpsOf buf)[0]?) = false) :
    entState buf = outInit := by
  cases h5 : (lumpsOf buf)[0]? with
  | none =>
    unfold entState
    rw [h5]
  | some ent =>
    unfold entState
    rw [h5] at hE ⊢
    show (if lumpOk buf (some ent) = true then
        extractFromEntities (jsBufToString buf ent.offset (ent.offset + ent.length)) outInit
      else outInit) = outInit
    rw [if_neg (by simp [hE])]

lemma texList_of_bad (buf : List Nat) (hT : lumpOk buf ((lumpsOf buf)[5]?) = false) :
    texList buf = [] := by
  cases h5 : (lumpsOf buf)[5]? with
  | none =>
    unfold texList
    rw [h5]
  | some tix =>
    unfold texList
    rw [h5] at hT ⊢
    show (if lumpOk buf (some tix) = true then
        texRecords buf tix.offset (tix.length.toNat / 76) else []) = []
    rw [if_neg (by simp [hT])]

/-- C6 counterexample: the TEXINFO lump `{offset := -40, length := 116}` of
`negOffBuf` fails the claim's bounds (`offset ≥ 0` is violated), yet the
consumer's actual check accepts it, a texture is decoded out of the header
bytes, and no TEXINFO warning is emitted — the lump is not treated as
absent. -/
theorem lump_bounds_negative_offset_cex :
    (lumpsOf negOffBuf)[5]? = some ⟨-40, 116⟩ ∧
    lumpOk negOffBuf ((lumpsOf negOffBuf)[5]?) = true ∧
    (resultOf negOffBuf).textures = ["textures/IBSP&.wal"] ∧
    TEX_WARN ∉ (resultOf negOffBuf).warnings := by
  refine ⟨rfl, rfl, rfl, ?_⟩
  decide

/-- C6 (amended): each lump consumer checks exactly
`lump present ∧ length > 0 ∧ offset + length ≤ buffer.length` (a negative
offset can pass); a lump failing THIS check is treated as absent — the
corresponding buckets stay empty, the warning is emitted, and the analysis
still returns a result. -/
theorem lump_bounds_amended (buf : List Nat) (h : 8 ≤ buf.length) :
    (analyzeBspBuffer buf).isOk = true ∧
    (lumpOk buf ((lumpsOf buf)[0]?) = false →
      ENT_WARN ∈ (resultOf buf).warnings ∧ (resultOf buf).skies = [] ∧
      (resultOf buf).sounds = [] ∧ (resultOf buf).models = [] ∧
      (resultOf buf).others = [] ∧ (resultOf buf).entityStats = emptyStats ∧
      (resultOf buf).mapName = none ∧ (resultOf buf).mapVersion = none) ∧
    (lumpOk buf ((lumpsOf buf)[5]?) = false →
      TEX_WARN ∈ (resultOf buf).warnings ∧ (resultOf buf).textures = []) := by
  refine ⟨?_, ?_, ?_⟩
  · rw [analyzeBspBuffer, if_neg (by omega)]
    rfl
  · intro hE
    have hstate : entState buf = outInit := entState_of_bad buf hE
    have hwarn : entWarnings buf = [ENT_WARN] := by
      unfold entWarnings
      rw [if_neg (by simp [hE])]
    rw [resultOf_eq buf h]
    refine ⟨?_, ?_, ?_, ?_, ?_, ?_, ?_, ?_⟩
    · show ENT_WARN ∈ verWarnings buf ++ entWarnings buf ++ texWarnings buf
      rw [hwarn]
      simp
    · show sortStr (entState buf).skies = []
      rw [hstate]
      rfl
    · show sortStr (entState buf).sounds = []
      rw [hstate]
      rfl
    · show sortStr (entState buf).models = []
      rw [hstate]
      rfl
    · show sortStr (entState buf).others = []
      rw [hstate]
      rfl
    · show (entState buf).stats = emptyStats
      rw [hstate]
      rfl
    · show jsOrNull (entState buf).name = none
      rw [hstate]
      rfl
    · show jsOrNull (entState buf).version = none
      rw [hstate]
      rfl
  · intro hT
    have htex : texList buf = [] := texList_of_bad buf hT
    have hwarn : texWarnings buf = [TEX_WARN] := by
      unfold texWarnings
      rw [if_neg (by simp [hT])]
    rw [resultOf_eq buf h]
    constructor
    · show TEX_WARN ∈ verWarnings buf ++ entWarnings buf ++ texWarnings buf
      rw [hwarn]
      simp
    · show sortStr (texList buf) = []
      rw [htex]
      rfl

theorem lump_bounds_amended_w :
    (analyzeBspBuffer zeroBuf8).isOk = true ∧
    (ENT_WARN ∈ (resultOf zeroBuf8).warnings ∧ (resultOf zeroBuf8).skies = [] ∧
      (resultOf zeroBuf8).sounds = [] ∧ (resultOf zeroBuf8).models = [] ∧
      (resultOf zeroBuf8).others = [] ∧ (resultOf zeroBuf8).entityStats = emptyStats ∧
      (resultOf zeroBuf8).mapName = none ∧ (resultOf zeroBuf8).mapVersion = none) ∧
    (TEX_WARN ∈ (resultOf zeroBuf8).warnings ∧ (resultOf zeroBuf8).textures = []) :=
  ⟨(lump_bounds_amended zeroBuf8 (by decide)).1,
   (lump_bounds_amended zeroBuf8 (by decide)).2.1 (by decide),
   (lump_bounds_amended zeroBuf8 (by decide)).2.2 (by decide)⟩

/-! ## Signature and version diagnostics (C7) -/

lemma readLumpsAux_no_short (buf : List Nat) :
    ∀ (n off : Nat), off + 8 * n ≤ buf.length → (readLumpsAux buf off n).2 = false := by
  intro n
  induction n with
  | zero => intro off _; rfl
  | succ m ih =>
    intro off hoff
    unfold readLumpsAux
    rw [if_neg (by omega)]
    show (readLumpsAux buf (off + 8) m).2 = false
    exact ih (off + 8) (by omega)

lemma lumpTableShort_false (buf : List Nat) (h : 160 ≤ buf.length) :
    lumpTableShort buf = false :=
  readLumpsAux_no_short buf 19 8 (by omega)

lemma containsSub_append_left (x y p : String) (h : containsSub x p = true) :
    containsSub (x ++ y) p = true := by
  rw [containsSub, List.any_eq_true] at h ⊢
  obtain ⟨i, hi, hp⟩ := h
  rw [List.mem_range] at hi
  refine ⟨i, ?_, ?_⟩
  · rw [List.mem_range, String.data_append, List.length_append]
    omega
  · rw [String.data_append, List.drop_append_of_le_length (by omega)]
    rw [List.isPrefixOf_iff_prefix] at hp ⊢
    exact hp.trans (List.prefix_append _ _)

lemma containsSub_middle (a b c : String) : containsSub (a ++ b ++ c) b = true := by
  rw [containsSub, List.any_eq_true]
  refine ⟨a.data.length, ?_, ?_⟩
  · rw [List.mem_range]
    simp [String.data_append, List.length_append]
    omega
  · have hd : (a ++ b ++ c).data.drop a.data.length = b.data ++ c.data := by
      rw [String.data_append, String.data_append, List.append_assoc]
      exact List.drop_left _ _
    rw [hd, List.isPrefixOf_iff_prefix]
    exact List.prefix_append _ _

lemma sig_contains_both (m : String) :
    containsSub (sigErrMsg m) "IBSP" = true ∧ containsSub (sigErrMsg m) m = true := by
  constructor
  · unfold sigErrMsg
    exact containsSub_append_left _ _ _ (containsSub_append_left _ _ _ (by decide))
  · unfold sigErrMsg
    exact containsSub_middle _ _ _

/-- C7: with at least 160 bytes (a complete lump table) and a magic other
than `IBSP`, the result carries exactly one error, which mentions both the
expected signature `IBSP` and the actual signature, while lump-table,
entity and texinfo extraction still run on the remaining bytes; a version
other than 38 contributes a warning and never an error. -/
theorem signature_mismatch_recoverable :
    (∀ buf : List Nat, 160 ≤ buf.length → jsBufToString buf 0 4 ≠ "IBSP" →
      (resultOf buf).errors = [sigErrMsg (jsBufToString buf 0 4)] ∧
      containsSub (sigErrMsg (jsBufToString buf 0 4)) "IBSP" = true ∧
      containsSub (sigErrMsg (jsBufToString buf 0 4)) (jsBufToString buf 0 4) = true ∧
      (resultOf buf).textures = sortStr (texList buf) ∧
      (resultOf buf).skies = sortStr (entState buf).skies ∧
      (resultOf buf).entityStats = (entState buf).stats) ∧
    (∀ buf : List Nat, 8 ≤ buf.length → readInt32LE buf 4 ≠ 38 →
      verWarnMsg (readInt32LE buf 4) ∈ (resultOf buf).warnings ∧
      (resultOf buf).errors = sigErrors buf ++ truncErrors buf) := by
  constructor
  · intro buf h160 hm
    have h8 : 8 ≤ buf.length := by omega
    rw [resultOf_eq buf h8]
    refine ⟨?_, (sig_contains_both _).1, (sig_contains_both _).2, rfl, rfl, rfl⟩
    show sigErrors buf ++ truncErrors buf = _
    unfold sigErrors truncErrors
    rw [if_neg (fun hc => hm (beq_iff_eq.mp hc)), lumpTableShort_false buf h160,
      if_neg (by simp)]
    rfl
  · intro buf h8 hv
    rw [resultOf_eq buf h8]
    constructor
    · show verWarnMsg _ ∈ verWarnings buf ++ entWarnings buf ++ texWarnings buf
      have hw : verWarnings buf = [verWarnMsg (readInt32LE buf 4)] := by
        unfold verWarnings
        rw [if_neg (fun hc => hv (beq_iff_eq.mp hc))]
      rw [hw]
      simp
    · rfl

theorem signature_mismatch_recoverable_w :
    ((resultOf badMagicBuf).errors = [sigErrMsg (jsBufToString badMagicBuf 0 4)] ∧
      containsSub (sigErrMsg (jsBufToString badMagicBuf 0 4)) "IBSP" = true ∧
      containsSub (sigErrMsg (jsBufToString badMagicBuf 0 4)) (jsBufToString badMagicBuf 0 4) = true ∧
      (resultOf badMagicBuf).textures = sortStr (texList badMagicBuf) ∧
      (resultOf badMagicBuf).skies = sortStr (entState badMagicBuf).skies ∧
      (resultOf badMagicBuf).entityStats = (entState badMagicBuf).stats) ∧
    (verWarnMsg (readInt32LE badVersionBuf 4) ∈ (resultOf badVersionBuf).warnings ∧
      (resultOf badVersionBuf).errors = sigErrors badVersionBuf ++ truncErrors badVersionBuf) :=
  ⟨signature_mismatch_recoverable.1 badMagicBuf (by decide) (by decide),
   signature_mismatch_recoverable.2 badVersionBuf (by decide) (by decide)⟩

/-! ## Sortedness and dedup of the returned sets (C8) -/

lemma insertSet_nodup (l : List String) (x : String) (h : l.Nodup) :
    (insertSet l x).Nodup := by
  unfold insertSet
  split
  · exact h
  next hc =>
    refine List.Nodup.append h (List.nodup_singleton x) ?_
    rw [List.disjoint_singleton]
    intro hx
    exact hc (List.elem_iff.mpr hx)

lemma bucketStep_nodup (st : OutState) (k v : String)
    (h1 : st.skies.Nodup) (h2 : st.sounds.Nodup) (h3 : st.models.Nodup)
    (h4 : st.others.Nodup) :
    (bucketStep st k v).skies.Nodup ∧ (bucketStep st k v).sounds.Nodup ∧
    (bucketStep st k v).models.Nodup ∧ (bucketStep st k v).others.Nodup := by
  unfold bucketStep
  repeat' split
  all_goals first
  | exact ⟨insertSet_nodup _ _ h1, h2, h3, h4⟩
  | exact ⟨h1, insertSet_nodup _ _ h2, h3, h4⟩
  | exact ⟨h1, h2, insertSet_nodup _ _ h3, h4⟩
  | exact ⟨h1, h2, h3, insertSet_nodup _ _ h4⟩
  | exact ⟨h1, h2, h3, h4⟩

lemma preSteps_buckets (st : OutState) (p : String × String) :
    (statsStep (versionStep (nameStep st p) p) p).skies = st.skies ∧
    (statsStep (versionStep (nameStep st p) p) p).sounds = st.sounds ∧
    (statsStep (versionStep (nameStep st p) p) p).models = st.models ∧
    (statsStep (versionStep (nameStep st p) p) p).others = st.others := by
  unfold statsStep versionStep nameStep
  repeat' split
  all_goals exact ⟨rfl, rfl, rfl, rfl⟩

lemma processPair_nodup (st : OutState) (p : String × String)
    (h1 : st.skies.Nodup) (h2 : st.sounds.Nodup) (h3 : st.models.Nodup)
    (h4 : st.others.Nodup) :
    (processPair st p).skies.Nodup ∧ (processPair st p).sounds.Nodup ∧
    (processPair st p).models.Nodup ∧ (processPair st p).others.Nodup := by
  unfold processPair
  split
  · exact ⟨h1, h2, h3, h4⟩
  · obtain ⟨e1, e2, e3, e4⟩ := preSteps_buckets st p
    exact bucketStep_nodup _ p.1 p.2 (by rw [e1]; exact h1) (by rw [e2]; exact h2)
      (by rw [e3]; exact h3) (by rw [e4]; exact h4)

lemma entFold_nodup (ps : List (String × String)) :
    ∀ st : OutState, st.skies.Nodup → st.sounds.Nodup → st.models.Nodup →
      st.others.Nodup →
      (entFold ps st).skies.Nodup ∧ (entFold ps st).sounds.Nodup ∧
      (entFold ps st).models.Nodup ∧ (entFold ps st).others.Nodup := by
  induction ps with
  | nil => intro st h1 h2 h3 h4; exact ⟨h1, h2, h3, h4⟩
  | cons p ps ih =>
    intro st h1 h2 h3 h4
    rw [entFold_cons]
    obtain ⟨g1, g2, g3, g4⟩ := processPair_nodup st p h1 h2 h3 h4
    exact ih _ g1 g2 g3 g4

lemma entState_nodup (buf : List Nat) :
    (entState buf).skies.Nodup ∧ (entState buf).sounds.Nodup ∧
    (entState buf).models.Nodup ∧ (entState buf).others.Nodup := by
  cases h5 : (lumpsOf buf)[0]? with
  | none =>
    rw [entState_of_bad buf (by rw [h5]; rfl)]
    exact ⟨List.nodup_nil, List.nodup_nil, List.nodup_nil, List.nodup_nil⟩
  | some ent =>
    have hred : entState buf =
        (if lumpOk buf (some ent) = true then
          extractFromEntities (jsBufToString buf ent.offset (ent.offset + ent.length)) outInit
        else outInit) := by
      unfold entState
      rw [h5]
    rw [hred]
    split
    · unfold extractFromEntities
      exact entFold_nodup _ outInit List.nodup_nil List.nodup_nil List.nodup_nil
        List.nodup_nil
    · exact ⟨List.nodup_nil, List.nodup_nil, List.nodup_nil, List.nodup_nil⟩

lemma texRecordsAux_nodup (buf : List Nat) (off : Int) :
    ∀ (is : List Nat) (acc : List String), acc.Nodup →
      (texRecordsAux buf off is acc).Nodup := by
  intro is
  induction is with
  | nil => intro acc h; exact h
  | cons i is ih =>
    intro acc h
    unfold texRecordsAux
    apply ih
    split
    · exact h
    · exact insertSet_nodup _ _ h

lemma texList_nodup (buf : List Nat) : (texList buf).Nodup := by
  cases h5 : (lumpsOf buf)[5]? with
  | none =>
    rw [texList_of_bad buf (by rw [h5]; rfl)]
    exact List.nodup_nil
  | some tix =>
    have hred : texList buf =
        (if lumpOk buf (some tix) = true then
          texRecords buf tix.offset (tix.length.toNat / 76) else []) := by
      unfold texList
      rw [h5]
    rw [hred]
    split
    · unfold texRecords
      exact texRecordsAux_nodup _ _ _ _ List.nodup_nil
    · exact List.nodup_nil

lemma strLebAux_total (a : List Char) : ∀ b, strLebAux a b = true ∨ strLebAux b a = true := by
  induction a with
  | nil => intro b; left; rfl
  | cons x xs ih =>
    intro b
    cases b with
    | nil => right; rfl
    | cons y ys =>
      unfold strLebAux
      by_cases h1 : x < y
      · left
        rw [if_pos h1]
      · by_cases h2 : y < x
        · right
          rw [if_pos h2]
        · rcases ih ys with h | h
          · left
            rw [if_neg h1, if_neg h2]
            exact h
          · right
            rw [if_neg h2, if_neg h1]
            exact h

lemma strLebAux_trans (a : List Char) :
    ∀ b c, strLebAux a b = true → strLebAux b c = true → strLebAux a c = true := by
  induction a with
  | nil => intro b c _ _; rfl
  | cons x xs ih =>
    intro b c hab hbc
    cases b with
    | nil => simp [strLebAux] at hab
    | cons y ys =>
      cases c with
      | nil => simp [strLebAux] at hbc
      | cons z zs =>
        unfold strLebAux at hab hbc ⊢
        by_cases hxy1 : x < y
        · by_cases hyz1 : y < z
          · rw [if_pos (lt_trans hxy1 hyz1)]
          · by_cases hyz2 : z < y
            · rw [if_neg hyz1, if_pos hyz2] at hbc
              exact absurd hbc (by decide)
            · have hyz : y = z := le_antisymm (le_of_not_lt hyz2) (le_of_not_lt hyz1)
              subst hyz
              rw [if_pos hxy1]
        · by_cases hxy2 : y < x
          · rw [if_neg hxy1, if_pos hxy2] at hab
            exact absurd hab (by decide)
          · have hxy : x = y := le_antisymm (le_of_not_lt hxy2) (le_of_not_lt hxy1)
            subst hxy
            rw [if_neg hxy1, if_neg hxy2] at hab
            by_cases hyz1 : x < z
            · rw [if_pos hyz1]
            · by_cases hyz2 : z < x
              · rw [if_neg hyz1, if_pos hyz2] at hbc
                exact absurd hbc (by decide)
              · rw [if_neg hyz1, if_neg hyz2] at hbc ⊢
                exact ih ys zs hab hbc

lemma strLebAux_ne_lt (a : List Char) :
    ∀ b, strLebAux a b = true → a ≠ b → strLtbAux a b = true := by
  induction a with
  | nil =>
    intro b _ hne
    cases b with
    | nil => exact absurd rfl hne
    | cons y ys => rfl
  | cons x xs ih =>
    intro b hle hne
    cases b with
    | nil => simp [strLebAux] at hle
    | cons y ys =>
      unfold strLebAux at hle
      unfold strLtbAux
      by_cases h1 : x < y
      · rw [if_pos h1]
      · by_cases h2 : y < x
        · rw [if_neg h1, if_pos h2] at hle
          exact absurd hle (by decide)
        · have hxy : x = y := le_antisymm (le_of_not_lt h2) (le_of_not_lt h1)
          subst hxy
          rw [if_neg h1, if_neg h2] at hle
          rw [if_neg h1, if_neg h2]
          apply ih ys hle
          intro hys
          exact hne (by rw [hys])

lemma sortStr_pairwise (l : List String) (hl : l.Nodup) :
    List.Pairwise (fun a b => strLtb a b = true) (sortStr l) := by
  haveI ht : IsTotal String (fun a b => strLeb a b = true) :=
    ⟨fun a b => strLebAux_total a.data b.data⟩
  haveI htr : IsTrans String (fun a b => strLeb a b = true) :=
    ⟨fun a b c => strLebAux_trans a.data b.data c.data⟩
  have hs : List.Sorted (fun a b => strLeb a b = true) (sortStr l) :=
    List.sorted_insertionSort _ l
  have hnd : (sortStr l).Nodup := (List.perm_insertionSort _ l).symm.nodup hl
  exact (hs.and hnd).imp
    (fun hab => strLebAux_ne_lt _ _ hab.1 (fun hd => hab.2 (String.ext hd)))

/-- C8: every returned result has its five resource lists duplicate-free
and strictly ascending in lexicographic order, while the errors and
warnings lists are exactly the per-site emissions concatenated in program
order (no dedup, no sort). -/
theorem result_sets_sorted_nodup (buf : List Nat) (r : AnalysisResult)
    (h : analyzeBspBuffer buf = Except.ok r) :
    List.Pairwise (fun a b => strLtb a b = true) r.textures ∧
    List.Pairwise (fun a b => strLtb a b = true) r.skies ∧
    List.Pairwise (fun a b => strLtb a b = true) r.sounds ∧
    List.Pairwise (fun a b => strLtb a b = true) r.models ∧
    List.Pairwise (fun a b => strLtb a b = true) r.others ∧
    r.errors = sigErrors buf ++ truncErrors buf ∧
    r.warnings = verWarnings buf ++ entWarnings buf ++ texWarnings buf := by
  rw [analyzeBspBuffer] at h
  split at h
  · exact absurd h (by simp)
  · injection h with h2
    subst h2
    obtain ⟨e1, e2, e3, e4⟩ := entState_nodup buf
    exact ⟨sortStr_pairwise _ (texList_nodup buf), sortStr_pairwise _ e1,
      sortStr_pairwise _ e2, sortStr_pairwise _ e3, sortStr_pairwise _ e4, rfl, rfl⟩

theorem result_sets_sorted_nodup_w :
    List.Pairwise (fun a b => strLtb a b = true) (resultOf zeroBuf8).textures ∧
    List.Pairwise (fun a b => strLtb a b = true) (resultOf zeroBuf8).skies ∧
    List.Pairwise (fun a b => strLtb a b = true) (resultOf zeroBuf8).sounds ∧
    List.Pairwise (fun a b => strLtb a b = true) (resultOf zeroBuf8).models ∧
    List.Pairwise (fun a b => strLtb a b = true) (resultOf zeroBuf8).others ∧
    (resultOf zeroBuf8).errors = sigErrors zeroBuf8 ++ truncErrors zeroBuf8 ∧
    (resultOf zeroBuf8).warnings =
      verWarnings zeroBuf8 ++ entWarnings zeroBuf8 ++ texWarnings zeroBuf8 :=
  result_sets_sorted_nodup zeroBuf8 (resultOf zeroBuf8) rfl
